import Mathlib

/-!
Verification of the valuation-signal dashboard (`app.py`).

The analytical core of the application is embedded shallowly:

* `rankPctLast` models `series.rank(pct=True).iloc[-1]` — pandas' percentile
  rank of the last element under the default "average" tie-breaking method:
  the value `v` receives rank `countLt + (countEq + 1)/2` (the mean of the
  ordinal positions of its tie group in the sorted order), divided by the
  length of the series.
* `classify` models the inline threshold comparison at `app.py` lines 91-95.
* `nextBuyTrigger` / `shouldBuyNow` / `fourPercentDecision` model the
  module-level "4% buy point" block at lines 219-229.
* `sharesForAmount` models `show_purchase_suggestion` at lines 214-217.
* `realtimeBlock` models the live-valuation snapshot at lines 58-81.
* `get_latest_data` models the whole fetch/filter/signal function at
  lines 28-105, with the remote fetches supplied as `Option`-valued inputs
  (`none` = the fetch raised) and dates as integers.
* `render` models the module-level display dispatch at lines 174 and 237-238.

Numeric values are rationals; pandas `NaN` (which `Series.asof` yields when
no row is at or before the lookup date) is modelled by the `PFloat.nan`
constructor, distinct from Python's `None`.
-/

/-- Number of elements of `l` strictly below `v`. -/
def countLt (l : List ℚ) (v : ℚ) : ℕ := (l.filter (fun x => x < v)).length

/-- Number of elements of `l` equal to `v` (the element itself included). -/
def countEq (l : List ℚ) (v : ℚ) : ℕ := (l.filter (fun x => x = v)).length

/-- Number of elements of `l` at or below `v`. -/
def countLe (l : List ℚ) (v : ℚ) : ℕ := (l.filter (fun x => x ≤ v)).length

/-- pandas "average" rank of value `v` within `l`: ties share the mean of
their ordinal positions, i.e. `countLt + (countEq + 1)/2`. -/
def avgRank (l : List ℚ) (v : ℚ) : ℚ :=
  (countLt l v : ℚ) + ((countEq l v : ℚ) + 1) / 2

/-- The last element of a list of rationals (`iloc[-1]`), defaulting to `0`
on the empty list; every use is guarded by non-emptiness. -/
def lastVal (l : List ℚ) : ℚ := l.getLastD 0

/-- `series.rank(pct=True).iloc[-1]`: the average rank of the most recent
(last) observation divided by the window length (`app.py` lines 71 and 88). -/
def rankPctLast (l : List ℚ) : ℚ := avgRank l (lastVal l) / (l.length : ℚ)

/-- Modelled from the spec: the glossary of `spec.md` defines the percentile
rank as "fraction of historical observations (including the observation
itself) that are ≤ the observation's value".  This definition follows the
spec's words and is compared against `rankPctLast`, the rank the code
computes. -/
def specFracLe (l : List ℚ) (v : ℚ) : ℚ := (countLe l v : ℚ) / (l.length : ℚ)

/-- The three signal classifications.  The Python code uses the strings
"进入买入区间" / "建议持有" / "进入卖出区间". -/
inductive Signal : Type
  | buy : Signal
  | hold : Signal
  | sell : Signal
deriving DecidableEq, Repr

/-- The threshold comparison of `app.py` lines 91-95: start from HOLD,
switch to BUY when the rank is strictly below the entry percentile, else to
SELL when strictly above the exit percentile. -/
def classify (r entry_percentile exit_percentile : ℚ) : Signal :=
  if r < entry_percentile then Signal.buy
  else if r > exit_percentile then Signal.sell
  else Signal.hold

/-- Line 219-221: when a previous buy price is positive the next trigger is
`last_buy_price * (1 - dropFraction)`; a zero last-buy price means a first
purchase with no trigger.  The code hardcodes `dropFraction = 0.04`. -/
def nextBuyTrigger (lastBuyPrice dropFraction : ℚ) : Option ℚ :=
  if 0 < lastBuyPrice then some (lastBuyPrice * (1 - dropFraction)) else none

/-- Lines 222-229: buy when there is no trigger (first purchase), otherwise
exactly when the decision price is at or below the trigger. -/
def shouldBuyNow (currentPrice : ℚ) : Option ℚ → Bool
  | none => true
  | some t => decide (currentPrice ≤ t)

/-- The complete module-level 4% decision (lines 219-229) for a given last
buy price and decision price, with the hardcoded 4% drop. -/
def fourPercentDecision (lastBuyPrice priceForDecision : ℚ) : Bool :=
  shouldBuyNow priceForDecision (nextBuyTrigger lastBuyPrice (4 / 100))

/-- `show_purchase_suggestion` (lines 214-217): the share count
`amount / price` is computed and shown only when both inputs are strictly
positive; otherwise nothing is computed (`none`, no error). -/
def sharesForAmount (amount price : ℚ) : Option ℚ :=
  if 0 < amount ∧ 0 < price then some (amount / price) else none

/-- A pandas float cell: either an actual value or `NaN` (which is *not*
Python's `None`). -/
inductive PFloat : Type
  | val : ℚ → PFloat
  | nan : PFloat
deriving DecidableEq, Repr

/-- `price_series.asof(d)` on a date-ascending series (line 55): the close
of the last row whose date is at or before `d`, `NaN` when there is none. -/
def asofClose (prices : List (ℤ × ℚ)) (d : ℤ) : PFloat :=
  match (prices.filter (fun p => p.1 ≤ d)).getLast? with
  | some p => PFloat.val p.2
  | none => PFloat.nan

/-- The real-time snapshot dictionary built at lines 73-77 (numeric values;
the code additionally formats `realtime_pe` and the percentile as strings
for display). -/
structure RealtimeMetrics : Type where
  realtime_price : ℚ
  realtime_pe : ℚ
  realtime_pe_percentile : ℚ
deriving DecidableEq, Repr

/-- Lines 58-81: the best-effort real-time valuation block.  `spot` is the
outcome of the spot fetch plus row extraction at lines 60-61 (`none` = that
code raised, caught at line 78).  With a live price in hand, when the latest
historical P/E and close are both positive the implied EPS and live P/E are
computed and the live point is appended to the valuation window before
ranking; otherwise the block stays `none`. -/
def realtimeBlock (vals closes : List ℚ) (spot : Option ℚ) : Option RealtimeMetrics :=
  match spot with
  | none => none
  | some realtime_price =>
    let last_pe := lastVal vals
    let last_close := lastVal closes
    if 0 < last_pe ∧ 0 < last_close then
      let inferred_eps := last_close / last_pe
      let realtime_pe := realtime_price / inferred_eps
      let combined_pe := vals ++ [realtime_pe]
      some ⟨realtime_price, realtime_pe, rankPctLast combined_pe⟩
    else none

/-- The result dictionary built at lines 97-103 (numeric values; the code
formats the percentile and thresholds as strings for display). -/
structure SignalRecord : Type where
  date : ℤ
  pe_percentile : ℚ
  signal : Signal
  entry_threshold : ℚ
  exit_threshold : ℚ
deriving DecidableEq, Repr

/-- The five-tuple returned by `get_latest_data` (line 51, 85 or 105).
Every slot is an `Option`; `none` is Python's `None`. -/
structure EvalOutput : Type where
  result : Option SignalRecord
  current_price_eod : Option PFloat
  valuation_history : Option (List (ℤ × ℚ))
  price_history : Option (List (ℤ × ℚ))
  realtime_metrics : Option RealtimeMetrics
deriving DecidableEq, Repr

/-- The `None, None, None, None, None` tuple of lines 51 and 85. -/
def allNone : EvalOutput := ⟨none, none, none, none, none⟩

/-- `get_latest_data` (lines 28-105).  `valFetch` and `priceFetch` are the
two history fetches (`none` = the fetch raised, caught at line 83);
`spotFetch` is the live-price path; `cutoff` is the timestamp
`now - history_years` of line 46.  Both histories are filtered to dates at
or after the cutoff; an empty filtered window (line 50) or a failed history
fetch yields the all-`None` tuple.  Otherwise the end-of-day close is looked
up as-of the latest valuation date, the real-time block is attempted
best-effort, and the percentile rank of the latest P/E over the filtered
window is classified against the thresholds. -/
def get_latest_data (valFetch priceFetch : Option (List (ℤ × ℚ))) (spotFetch : Option ℚ)
    (cutoff : ℤ) (entry_percentile exit_percentile : ℚ) : EvalOutput :=
  match valFetch, priceFetch with
  | some valuation_df_full, some price_df_full =>
    let valuation_df_10y := valuation_df_full.filter (fun r => cutoff ≤ r.1)
    let price_df_10y := price_df_full.filter (fun r => cutoff ≤ r.1)
    if valuation_df_10y.isEmpty ∨ price_df_10y.isEmpty then allNone
    else
      let latest_date := ((valuation_df_10y.getLastD (0, 0)).1 : ℤ)
      let current_price_eod := asofClose price_df_10y latest_date
      let realtime_metrics :=
        realtimeBlock (valuation_df_10y.map Prod.snd) (price_df_10y.map Prod.snd) spotFetch
      let latest_pe_percentile := rankPctLast (valuation_df_10y.map Prod.snd)
      let signal := classify latest_pe_percentile entry_percentile exit_percentile
      ⟨some ⟨latest_date, latest_pe_percentile, signal, entry_percentile, exit_percentile⟩,
        some current_price_eod, some valuation_df_10y, some price_df_10y, realtime_metrics⟩
  | _, _ => allNone

/-- What the module-level script shows for a given `get_latest_data` output:
either the dashboard (line 174 onward) or the single error message of
line 238. -/
inductive Display : Type
  | dashboard : SignalRecord → Option RealtimeMetrics → Display
  | errorMessage : Display
deriving DecidableEq, Repr

/-- Lines 174 and 237-238: the dashboard renders iff the signal record is
truthy (the built dictionary is always non-empty, hence truthy iff not
`None`) and the end-of-day price is not `None`; otherwise the one error
message is shown. -/
def render (out : EvalOutput) : Display :=
  match out.result, out.current_price_eod with
  | some sig, some _ => Display.dashboard sig out.realtime_metrics
  | _, _ => Display.errorMessage

example : rankPctLast [10, 12, 14, 16, 18, 20] = 1 := by
  norm_num [rankPctLast, avgRank, countLt, countEq, lastVal, List.filter]
example : rankPctLast [20, 18, 16, 14, 12, 10] = 1/6 := by
  norm_num [rankPctLast, avgRank, countLt, countEq, lastVal, List.filter]
example : rankPctLast [5, 5] = 3/4 := by
  norm_num [rankPctLast, avgRank, countLt, countEq, lastVal, List.filter]
example : rankPctLast [5, 5, 5, 5] = 5/8 := by
  norm_num [rankPctLast, avgRank, countLt, countEq, lastVal, List.filter]
example : classify 1 (1/2) (85/100) = Signal.sell := by norm_num [classify]
example : classify (1/6) (1/2) (85/100) = Signal.buy := by norm_num [classify]
example : classify (1/2) (1/2) (85/100) = Signal.hold := by norm_num [classify]
example : nextBuyTrigger 100 (4/100) = some 96 := by norm_num [nextBuyTrigger]
example : shouldBuyNow 95 (some 96) = true := by norm_num [shouldBuyNow]
example : shouldBuyNow 97 (some 96) = false := by norm_num [shouldBuyNow]
example : sharesForAmount 1000 50 = some 20 := by norm_num [sharesForAmount]

/-! ### Helper lemmas on ranks and windows -/

lemma lastVal_mem (l : List ℚ) (h : l ≠ []) : lastVal l ∈ l := by
  rw [lastVal, List.getLastD_eq_getLast?, List.getLast?_eq_getLast l h]
  exact List.getLast_mem h

lemma one_le_countEq (l : List ℚ) (v : ℚ) (hv : v ∈ l) : 1 ≤ countEq l v := by
  have hmem : v ∈ l.filter (fun x => x = v) := List.mem_filter.mpr ⟨hv, by simp⟩
  exact List.length_pos.mpr (List.ne_nil_of_mem hmem)

lemma countLt_add_countEq (l : List ℚ) (v : ℚ) :
    countLt l v + countEq l v = countLe l v := by
  induction l with
  | nil => rfl
  | cons a t ih =>
    simp only [countLt, countEq, countLe, List.filter_cons] at ih ⊢
    rcases lt_trichotomy a v with h | h | h
    · simp [h, h.ne, h.le]
      omega
    · subst h
      simp [lt_irrefl]
      omega
    · simp [not_lt.mpr h.le, h.ne', not_le.mpr h]
      omega

lemma countLe_le_length (l : List ℚ) (v : ℚ) : countLe l v ≤ l.length :=
  List.length_filter_le _ l

lemma rankPctLast_pos (l : List ℚ) (h : l ≠ []) : 0 < rankPctLast l := by
  have hn : 0 < (l.length : ℚ) := by exact_mod_cast List.length_pos.mpr h
  apply div_pos _ hn
  rw [avgRank]
  positivity

lemma rankPctLast_le_one (l : List ℚ) (h : l ≠ []) : rankPctLast l ≤ 1 := by
  have hn : 0 < (l.length : ℚ) := by exact_mod_cast List.length_pos.mpr h
  have hEq : 1 ≤ countEq l (lastVal l) := one_le_countEq l _ (lastVal_mem l h)
  have hsum : countLt l (lastVal l) + countEq l (lastVal l) ≤ l.length := by
    rw [countLt_add_countEq]
    exact countLe_le_length l _
  rw [rankPctLast, div_le_one hn, avgRank]
  have hEq' : (1 : ℚ) ≤ (countEq l (lastVal l) : ℚ) := by exact_mod_cast hEq
  have hsum' : (countLt l (lastVal l) : ℚ) + (countEq l (lastVal l) : ℚ) ≤ (l.length : ℚ) := by
    exact_mod_cast hsum
  linarith

lemma getLastD_replicate (v d : ℚ) (n : ℕ) (hn : 0 < n) :
    (List.replicate n v).getLastD d = v := by
  induction n generalizing d with
  | zero => exact absurd hn (lt_irrefl 0)
  | succ m ih =>
    rw [List.replicate_succ]
    rcases Nat.eq_zero_or_pos m with hm | hm
    · subst hm; rfl
    · rw [List.getLastD_cons]; exact ih v hm

lemma rankPctLast_replicate (n : ℕ) (hn : 0 < n) (v : ℚ) :
    rankPctLast (List.replicate n v) = ((n : ℚ) + 1) / (2 * n) := by
  have hl : lastVal (List.replicate n v) = v := getLastD_replicate v 0 n hn
  have hn' : ((n : ℚ)) ≠ 0 := by exact_mod_cast hn.ne'
  rw [rankPctLast, hl, avgRank, countLt, countEq, List.filter_replicate, List.filter_replicate]
  simp only [decide_eq_true_eq, if_pos rfl, if_neg (lt_irrefl v)]
  simp only [List.length_nil, List.length_replicate, Nat.cast_zero]
  field_simp

lemma rankPctLast_untied (l : List ℚ) (h1 : countEq l (lastVal l) = 1) :
    rankPctLast l = specFracLe l (lastVal l) := by
  have hle : countLe l (lastVal l) = countLt l (lastVal l) + 1 := by
    rw [← countLt_add_countEq, h1]
  rw [rankPctLast, specFracLe, avgRank, h1, hle]
  push_cast
  ring_nf

lemma get_latest_data_none (vf pf : Option (List (ℤ × ℚ))) (sf : Option ℚ)
    (c : ℤ) (e x : ℚ) (h : vf = none ∨ pf = none) :
    get_latest_data vf pf sf c e x = allNone := by
  rcases h with h | h
  · subst h; cases pf <;> rfl
  · subst h; cases vf <;> rfl

lemma get_latest_data_empty (v p : List (ℤ × ℚ)) (sf : Option ℚ) (c : ℤ) (e x : ℚ)
    (h : (v.filter (fun r => c ≤ r.1)).isEmpty = true ∨
         (p.filter (fun r => c ≤ r.1)).isEmpty = true) :
    get_latest_data (some v) (some p) sf c e x = allNone := by
  rcases h with h | h <;> simp [get_latest_data, h]

lemma get_latest_data_success (v p : List (ℤ × ℚ)) (sf : Option ℚ) (c : ℤ) (e x : ℚ)
    (hv : (v.filter (fun r => c ≤ r.1)).isEmpty = false)
    (hp : (p.filter (fun r => c ≤ r.1)).isEmpty = false) :
    get_latest_data (some v) (some p) sf c e x =
      ⟨some ⟨((v.filter (fun r => c ≤ r.1)).getLastD (0, 0)).1,
             rankPctLast ((v.filter (fun r => c ≤ r.1)).map Prod.snd),
             classify (rankPctLast ((v.filter (fun r => c ≤ r.1)).map Prod.snd)) e x,
             e, x⟩,
       some (asofClose (p.filter (fun r => c ≤ r.1))
         ((v.filter (fun r => c ≤ r.1)).getLastD (0, 0)).1),
       some (v.filter (fun r => c ≤ r.1)),
       some (p.filter (fun r => c ≤ r.1)),
       realtimeBlock ((v.filter (fun r => c ≤ r.1)).map Prod.snd)
         ((p.filter (fun r => c ≤ r.1)).map Prod.snd) sf⟩ := by
  simp [get_latest_data, hv, hp]

/-! ### Claim theorems -/

/-- C1: for valid thresholds (entry < exit) the classification is BUY iff the
rank is strictly below the entry percentile, SELL iff strictly above the exit
percentile, HOLD otherwise; a rank exactly at either threshold is HOLD
(strict inequalities on both sides).  `classify` is a Lean function, hence
deterministic and total on ℚ × valid thresholds. -/
theorem classify_strict_threshold_characterization (r e x : ℚ) (hex : e < x) :
    (classify r e x = Signal.buy ↔ r < e) ∧
    (classify r e x = Signal.sell ↔ x < r) ∧
    (classify r e x = Signal.hold ↔ e ≤ r ∧ r ≤ x) ∧
    classify e e x = Signal.hold ∧
    classify x e x = Signal.hold := by
  have hb : classify r e x = Signal.buy ↔ r < e := by
    unfold classify; split_ifs with h1 h2 <;> simp [h1]
  have hs : classify r e x = Signal.sell ↔ x < r := by
    unfold classify
    split_ifs with h1 h2
    · simp only [iff_false, reduceCtorEq, false_iff]
      intro hc; linarith
    · simp [h2]
    · simp [h2]
  have hh : classify r e x = Signal.hold ↔ e ≤ r ∧ r ≤ x := by
    unfold classify
    split_ifs with h1 h2
    · simp [not_le.mpr h1]
    · simp [not_le.mpr h2]
    · simp [not_lt.mp h1, not_lt.mp h2]
  have hbd1 : classify e e x = Signal.hold := by
    unfold classify
    rw [if_neg (lt_irrefl e), if_neg (by linarith : ¬ e > x)]
  have hbd2 : classify x e x = Signal.hold := by
    unfold classify
    rw [if_neg (by linarith : ¬ x < e), if_neg (lt_irrefl x)]
  exact ⟨hb, hs, hh, hbd1, hbd2⟩

/-- Witness for C1 at the code's default thresholds (0.5, 0.85): the rank
exactly at the entry percentile is classified HOLD. -/
theorem classify_strict_threshold_characterization_witness :
    classify (1/2) (1/2) (85/100) = Signal.hold ∧
    classify (85/100) (1/2) (85/100) = Signal.hold :=
  ⟨(classify_strict_threshold_characterization (1/2) (1/2) (85/100) (by norm_num)).2.2.2.1,
   (classify_strict_threshold_characterization (85/100) (1/2) (85/100) (by norm_num)).2.2.2.2⟩

/-- C2 counterexample: on the all-identical window [5,5,5,5] the code's rank
of the latest observation (pandas "average" ranking) is 5/8, while the
fraction of observations ≤ its value is 1; they differ, and 5/8 is not close
to 1. -/
theorem rank_not_fracLe_counterexample :
    rankPctLast [5, 5, 5, 5] = 5/8 ∧
    specFracLe [5, 5, 5, 5] (lastVal [5, 5, 5, 5]) = 1 ∧
    rankPctLast [5, 5, 5, 5] ≠ specFracLe [5, 5, 5, 5] (lastVal [5, 5, 5, 5]) := by
  norm_num [rankPctLast, specFracLe, avgRank, countLt, countEq, countLe, lastVal,
    List.filter]

/-- C2 (amended): the rank of the latest observation uses pandas "average"
fractional ranking; it equals the fraction of observations ≤ the latest
value exactly when the latest value is untied, and for a window of n
identical values the rank is (n+1)/(2n) — near 1/2 for large n, not near
1. -/
theorem rank_average_tie_behaviour (l : List ℚ) (n : ℕ) (v : ℚ) (hn : 0 < n)
    (huntied : countEq l (lastVal l) = 1) :
    rankPctLast l = specFracLe l (lastVal l) ∧
    rankPctLast (List.replicate n v) = ((n : ℚ) + 1) / (2 * n) :=
  ⟨rankPctLast_untied l huntied, rankPctLast_replicate n hn v⟩

/-- Witness for the amended C2: latest value 2 of [1,3,2] is untied, so its
rank is the ≤-fraction; a window of four identical values ranks at 5/8. -/
theorem rank_average_tie_behaviour_witness :
    rankPctLast [1, 3, 2] = specFracLe [1, 3, 2] (lastVal [1, 3, 2]) ∧
    rankPctLast (List.replicate 4 (5 : ℚ)) = ((4 : ℚ) + 1) / (2 * 4) :=
  rank_average_tie_behaviour [1, 3, 2] 4 5 (by norm_num)
    (by norm_num [countEq, lastVal, List.filter])

/-- C3: whenever `get_latest_data` produces a signal record, the percentile
rank it carries lies in (0,1], it is the rank of the latest observation over
exactly the filtered valuation window that the evaluation returns (the
latest point ranked within its own window), and the stored signal is the
classification of that very rank. -/
theorem percentile_rank_unit_interval_same_window (v p : List (ℤ × ℚ)) (sf : Option ℚ)
    (c : ℤ) (e x : ℚ) (rec : SignalRecord)
    (hres : (get_latest_data (some v) (some p) sf c e x).result = some rec) :
    0 < rec.pe_percentile ∧ rec.pe_percentile ≤ 1 ∧
    rec.pe_percentile = rankPctLast ((v.filter (fun r => c ≤ r.1)).map Prod.snd) ∧
    rec.signal = classify rec.pe_percentile e x ∧
    (get_latest_data (some v) (some p) sf c e x).valuation_history =
      some (v.filter (fun r => c ≤ r.1)) := by
  rcases Bool.eq_false_or_eq_true ((v.filter (fun r => c ≤ r.1)).isEmpty) with hv | hv
  · rw [get_latest_data_empty v p sf c e x (Or.inl hv)] at hres
    exact absurd hres (by simp [allNone])
  · rcases Bool.eq_false_or_eq_true ((p.filter (fun r => c ≤ r.1)).isEmpty) with hp | hp
    · rw [get_latest_data_empty v p sf c e x (Or.inr hp)] at hres
      exact absurd hres (by simp [allNone])
    · rw [get_latest_data_success v p sf c e x hv hp] at hres ⊢
      have hrec := (Option.some.inj hres)
      have hne : (v.filter (fun r => c ≤ r.1)).map Prod.snd ≠ [] := by
        intro hnil
        rw [List.map_eq_nil_iff] at hnil
        rw [hnil] at hv
        simp at hv
      refine ⟨?_, ?_, ?_, ?_, rfl⟩
      · rw [← hrec]; exact rankPctLast_pos _ hne
      · rw [← hrec]; exact rankPctLast_le_one _ hne
      · rw [← hrec]
      · rw [← hrec]

/-- Witness for C3: a one-observation window; the latest P/E ranks at 1,
which the default thresholds classify as SELL. -/
theorem percentile_rank_unit_interval_witness :
    0 < (1 : ℚ) ∧ (1 : ℚ) ≤ 1 ∧
    (1 : ℚ) = rankPctLast (([((5 : ℤ), (10 : ℚ))].filter (fun r => (0 : ℤ) ≤ r.1)).map Prod.snd) ∧
    Signal.sell = classify 1 (1/2) (85/100) ∧
    (get_latest_data (some [((5 : ℤ), (10 : ℚ))]) (some [((5 : ℤ), (100 : ℚ))])
        none 0 (1/2) (85/100)).valuation_history =
      some ([((5 : ℤ), (10 : ℚ))].filter (fun r => (0 : ℤ) ≤ r.1)) := by
  have h := percentile_rank_unit_interval_same_window [((5 : ℤ), (10 : ℚ))]
    [((5 : ℤ), (100 : ℚ))] none 0 (1/2) (85/100) ⟨5, 1, Signal.sell, 1/2, 85/100⟩
    (by norm_num [get_latest_data, allNone, asofClose, realtimeBlock, rankPctLast,
      avgRank, countLt, countEq, lastVal, classify, List.filter])
  exact h

/-- C4: a positive last buy price yields the trigger lastBuyPrice × (1 − drop)
and the buy decision holds iff the current price is at or below it; a zero
last buy price yields no trigger (first purchase) and the decision holds for
every price.  At the spec's example values: trigger(100, 4%) = 96,
shouldBuyNow(95, 96) = true, shouldBuyNow(97, 96) = false. -/
theorem fourPercent_trigger_and_decision (lbp d p : ℚ) (hlbp : 0 ≤ lbp) :
    (0 < lbp → nextBuyTrigger lbp d = some (lbp * (1 - d)) ∧
        (shouldBuyNow p (nextBuyTrigger lbp d) = true ↔ p ≤ lbp * (1 - d))) ∧
    (lbp = 0 → nextBuyTrigger lbp d = none ∧ shouldBuyNow p (nextBuyTrigger lbp d) = true) ∧
    nextBuyTrigger 100 (4/100) = some 96 ∧
    shouldBuyNow 95 (some 96) = true ∧
    shouldBuyNow 97 (some 96) = false := by
  refine ⟨?_, ?_, ?_, ?_, ?_⟩
  · intro h
    rw [nextBuyTrigger, if_pos h]
    exact ⟨rfl, by simp [shouldBuyNow]⟩
  · intro h
    subst h
    rw [nextBuyTrigger, if_neg (lt_irrefl 0)]
    exact ⟨rfl, rfl⟩
  · norm_num [nextBuyTrigger]
  · norm_num [shouldBuyNow]
  · norm_num [shouldBuyNow]

/-- Witness for C4 at lastBuyPrice = 100, drop = 4%, price = 95. -/
theorem fourPercent_trigger_and_decision_witness :
    nextBuyTrigger 100 (4/100) = some (100 * (1 - 4/100)) ∧
    (shouldBuyNow 95 (nextBuyTrigger 100 (4/100)) = true ↔ (95 : ℚ) ≤ 100 * (1 - 4/100)) :=
  (fourPercent_trigger_and_decision 100 (4/100) 95 (by norm_num)).1 (by norm_num)

/-- C7: the share count is amount / price exactly when both are positive
(the divisor is then nonzero, so the division-by-zero branch is
unreachable); otherwise nothing is computed and no error is raised.
sharesForAmount(1000, 50) = 20 and sharesForAmount(1000, 0) is not
computable. -/
theorem sharesForAmount_guarded_division (a p : ℚ) :
    (0 < a ∧ 0 < p → sharesForAmount a p = some (a / p) ∧ p ≠ 0) ∧
    (a ≤ 0 ∨ p ≤ 0 → sharesForAmount a p = none) ∧
    sharesForAmount 1000 50 = some 20 ∧
    sharesForAmount 1000 0 = none := by
  refine ⟨?_, ?_, ?_, ?_⟩
  · intro h
    rw [sharesForAmount, if_pos h]
    exact ⟨rfl, ne_of_gt h.2⟩
  · intro h
    rw [sharesForAmount, if_neg]
    rcases h with h | h
    · exact fun hc => absurd hc.1 (not_lt.mpr h)
    · exact fun hc => absurd hc.2 (not_lt.mpr h)
  · norm_num [sharesForAmount]
  · norm_num [sharesForAmount]

/-- Witness for C7 at amount = 1000, price = 50: the guarded division fires
with a nonzero divisor. -/
theorem sharesForAmount_guarded_division_witness :
    sharesForAmount 1000 50 = some (1000 / 50) ∧ (50 : ℚ) ≠ 0 :=
  (sharesForAmount_guarded_division 1000 50).1 (by norm_num)

/-- C5: when both history fetches succeed and both filtered windows are
non-empty, a failed live-price path leaves the real-time block `none` while
the signal record (date, rank, signal, thresholds), the end-of-day price and
both history series are exactly what they would be with any live-price
outcome — the live failure never aborts the main signal computation. -/
theorem live_price_failure_degrades_gracefully (v p : List (ℤ × ℚ)) (c : ℤ) (e x : ℚ)
    (s : Option ℚ)
    (hv : (v.filter (fun r => c ≤ r.1)).isEmpty = false)
    (hp : (p.filter (fun r => c ≤ r.1)).isEmpty = false) :
    (get_latest_data (some v) (some p) none c e x).realtime_metrics = none ∧
    (get_latest_data (some v) (some p) none c e x).result.isSome = true ∧
    (get_latest_data (some v) (some p) none c e x).result =
      (get_latest_data (some v) (some p) s c e x).result ∧
    (get_latest_data (some v) (some p) none c e x).current_price_eod =
      (get_latest_data (some v) (some p) s c e x).current_price_eod ∧
    (get_latest_data (some v) (some p) none c e x).valuation_history =
      (get_latest_data (some v) (some p) s c e x).valuation_history ∧
    (get_latest_data (some v) (some p) none c e x).price_history =
      (get_latest_data (some v) (some p) s c e x).price_history := by
  rw [get_latest_data_success v p none c e x hv hp,
    get_latest_data_success v p s c e x hv hp]
  exact ⟨rfl, rfl, rfl, rfl, rfl, rfl⟩

/-- Witness for C5: one-row histories, the live fetch raised, a live fetch
returning 7 changes nothing in the historical fields. -/
theorem live_price_failure_degrades_gracefully_witness :
    (get_latest_data (some [((5 : ℤ), (10 : ℚ))]) (some [((5 : ℤ), (100 : ℚ))])
        none 0 (1/2) (85/100)).realtime_metrics = none ∧
    (get_latest_data (some [((5 : ℤ), (10 : ℚ))]) (some [((5 : ℤ), (100 : ℚ))])
        none 0 (1/2) (85/100)).result.isSome = true ∧
    (get_latest_data (some [((5 : ℤ), (10 : ℚ))]) (some [((5 : ℤ), (100 : ℚ))])
        none 0 (1/2) (85/100)).result =
      (get_latest_data (some [((5 : ℤ), (10 : ℚ))]) (some [((5 : ℤ), (100 : ℚ))])
        (some 7) 0 (1/2) (85/100)).result ∧
    (get_latest_data (some [((5 : ℤ), (10 : ℚ))]) (some [((5 : ℤ), (100 : ℚ))])
        none 0 (1/2) (85/100)).current_price_eod =
      (get_latest_data (some [((5 : ℤ), (10 : ℚ))]) (some [((5 : ℤ), (100 : ℚ))])
        (some 7) 0 (1/2) (85/100)).current_price_eod ∧
    (get_latest_data (some [((5 : ℤ), (10 : ℚ))]) (some [((5 : ℤ), (100 : ℚ))])
        none 0 (1/2) (85/100)).valuation_history =
      (get_latest_data (some [((5 : ℤ), (10 : ℚ))]) (some [((5 : ℤ), (100 : ℚ))])
        (some 7) 0 (1/2) (85/100)).valuation_history ∧
    (get_latest_data (some [((5 : ℤ), (10 : ℚ))]) (some [((5 : ℤ), (100 : ℚ))])
        none 0 (1/2) (85/100)).price_history =
      (get_latest_data (some [((5 : ℤ), (10 : ℚ))]) (some [((5 : ℤ), (100 : ℚ))])
        (some 7) 0 (1/2) (85/100)).price_history :=
  live_price_failure_degrades_gracefully [((5 : ℤ), (10 : ℚ))] [((5 : ℤ), (100 : ℚ))]
    0 (1/2) (85/100) (some 7) (by norm_num [List.filter]) (by norm_num [List.filter])

/-- C6: when either history fetch throws, or either series is empty after
the trailing-window filtering (the `InsufficientDataError` of the spec),
`get_latest_data` aborts with the all-`None` tuple — no signal is produced —
and the page shows the single error message instead of any partial
dashboard. -/
theorem history_failure_aborts_with_error (vf pf : Option (List (ℤ × ℚ))) (sf : Option ℚ)
    (c : ℤ) (e x : ℚ)
    (h : vf = none ∨ pf = none ∨
      ∃ v p, vf = some v ∧ pf = some p ∧
        ((v.filter (fun r => c ≤ r.1)).isEmpty = true ∨
         (p.filter (fun r => c ≤ r.1)).isEmpty = true)) :
    get_latest_data vf pf sf c e x = allNone ∧
    render (get_latest_data vf pf sf c e x) = Display.errorMessage := by
  have habort : get_latest_data vf pf sf c e x = allNone := by
    rcases h with h | h | ⟨v, p, hv, hp, h⟩
    · exact get_latest_data_none _ _ _ _ _ _ (Or.inl h)
    · exact get_latest_data_none _ _ _ _ _ _ (Or.inr h)
    · subst hv
      subst hp
      exact get_latest_data_empty v p sf c e x h
  refine ⟨habort, ?_⟩
  rw [habort]
  rfl

/-- Witness for C6: the valuation fetch raised. -/
theorem history_failure_aborts_with_error_witness :
    get_latest_data none none none 0 (1/2) (85/100) = allNone ∧
    render (get_latest_data none none none 0 (1/2) (85/100)) = Display.errorMessage :=
  history_failure_aborts_with_error none none none 0 (1/2) (85/100) (Or.inl rfl)

/-- C8: whenever the real-time block is produced from a live price p, the
latest historical P/E and close were positive, the implied per-share
fundamental is close/pe, the projected live P/E is p / (close/pe), equal to
p·pe/close, and the real-time percentile is the rank of this single live
point appended to the historical valuation window, ranked over the combined
series. -/
theorem realtime_reestimation_formulas (vals closes : List ℚ) (p : ℚ)
    (rt : RealtimeMetrics) (h : realtimeBlock vals closes (some p) = some rt) :
    0 < lastVal vals ∧ 0 < lastVal closes ∧
    rt.realtime_price = p ∧
    rt.realtime_pe = p / (lastVal closes / lastVal vals) ∧
    rt.realtime_pe = p * lastVal vals / lastVal closes ∧
    rt.realtime_pe_percentile = rankPctLast (vals ++ [rt.realtime_pe]) := by
  simp only [realtimeBlock] at h
  by_cases hg : 0 < lastVal vals ∧ 0 < lastVal closes
  · rw [if_pos hg] at h
    have hrt := Option.some.inj h
    refine ⟨hg.1, hg.2, ?_, ?_, ?_, ?_⟩
    · rw [← hrt]
    · rw [← hrt]
    · rw [← hrt]
      show p / (lastVal closes / lastVal vals) = p * lastVal vals / lastVal closes
      rw [div_div_eq_mul_div]
    · rw [← hrt]
  · rw [if_neg hg] at h
    cases h

/-- Witness for C8: historical window [2] with latest close 10 and live
price 7; the projected live P/E is 7/5 and it ranks at 1/2 in the combined
window [2, 7/5]. -/
theorem realtime_reestimation_formulas_witness :
    0 < lastVal [2] ∧ 0 < lastVal [10] ∧
    (RealtimeMetrics.mk 7 (7/5) (1/2)).realtime_price = 7 ∧
    (RealtimeMetrics.mk 7 (7/5) (1/2)).realtime_pe = 7 / (lastVal [10] / lastVal [2]) ∧
    (RealtimeMetrics.mk 7 (7/5) (1/2)).realtime_pe = 7 * lastVal [2] / lastVal [10] ∧
    (RealtimeMetrics.mk 7 (7/5) (1/2)).realtime_pe_percentile =
      rankPctLast ([2] ++ [(RealtimeMetrics.mk 7 (7/5) (1/2)).realtime_pe]) :=
  realtime_reestimation_formulas [2] [10] 7 (RealtimeMetrics.mk 7 (7/5) (1/2))
    (by norm_num [realtimeBlock, lastVal, rankPctLast, avgRank, countLt, countEq,
      List.filter])

/-- C9: the evaluation is all-or-nothing — every call of `get_latest_data`
either yields the all-`None` tuple or yields a tuple whose signal record,
end-of-day price, and both filtered history series are all present (the
real-time block remaining optional); a mix such as a signal record without
its price never occurs. -/
theorem evaluation_all_or_nothing (vf pf : Option (List (ℤ × ℚ))) (sf : Option ℚ)
    (c : ℤ) (e x : ℚ) :
    get_latest_data vf pf sf c e x = allNone ∨
    ((get_latest_data vf pf sf c e x).result.isSome = true ∧
     (get_latest_data vf pf sf c e x).current_price_eod.isSome = true ∧
     (get_latest_data vf pf sf c e x).valuation_history.isSome = true ∧
     (get_latest_data vf pf sf c e x).price_history.isSome = true) := by
  cases vf with
  | none => exact Or.inl (get_latest_data_none _ _ _ _ _ _ (Or.inl rfl))
  | some v =>
    cases pf with
    | none => exact Or.inl (get_latest_data_none _ _ _ _ _ _ (Or.inr rfl))
    | some p =>
      rcases Bool.eq_false_or_eq_true ((v.filter (fun r => c ≤ r.1)).isEmpty) with hv | hv
      · exact Or.inl (get_latest_data_empty v p sf c e x (Or.inl hv))
      · rcases Bool.eq_false_or_eq_true ((p.filter (fun r => c ≤ r.1)).isEmpty) with hp | hp
        · exact Or.inl (get_latest_data_empty v p sf c e x (Or.inr hp))
        · right
          rw [get_latest_data_success v p sf c e x hv hp]
          exact ⟨rfl, rfl, rfl, rfl⟩

/-- C10: the real-time metrics are computed only under the guard that the
latest historical P/E and close are both positive; under the guard both
divisors (pe and close/pe) are nonzero, and when the guard fails the block
is omitted (`none`), never an error. -/
theorem realtime_guarded_divisions (vals closes : List ℚ) (p : ℚ) :
    (0 < lastVal vals ∧ 0 < lastVal closes →
      lastVal vals ≠ 0 ∧ lastVal closes / lastVal vals ≠ 0 ∧
      (realtimeBlock vals closes (some p)).isSome = true) ∧
    (¬(0 < lastVal vals ∧ 0 < lastVal closes) →
      realtimeBlock vals closes (some p) = none) := by
  constructor
  · intro hg
    refine ⟨ne_of_gt hg.1, ne_of_gt (div_pos hg.2 hg.1), ?_⟩
    simp only [realtimeBlock]
    rw [if_pos hg]
    rfl
  · intro hg
    simp only [realtimeBlock]
    rw [if_neg hg]

/-- Witness for C10: with latest P/E 2 and close 10 the block is produced;
with latest P/E 0 it is omitted. -/
theorem realtime_guarded_divisions_witness :
    (realtimeBlock [2] [10] (some 9)).isSome = true ∧
    realtimeBlock [0] [10] (some 9) = none :=
  ⟨((realtime_guarded_divisions [2] [10] 9).1 (by norm_num [lastVal])).2.2,
   (realtime_guarded_divisions [0] [10] 9).2 (by norm_num [lastVal])⟩
